import Mathlib

/-!
Verification of the shift/business-date accounting engine of `autosum.py`.

The SQLite tables are embedded as follows:
* `totals` (primary key chat_id,date,shift,currency) becomes a finite map `TKey → Option TVal`;
* `history` (append-only log) becomes a `List HistoryEntry`;
* `old_totals` (append-only, non-unique key) becomes a `List OldRow`.

Dates are day indices (`Int`; the `%Y-%m-%d` rendering is injective), times of
day are seconds since midnight (`Nat`, second precision as stored), amounts are
`Rat`.
-/

structure DateTime where
  day : Int
  tod : Nat
deriving DecidableEq

inductive Shift where
  | shift1
  | shift2
  | shift3
deriving DecidableEq

inductive Currency where
  | USD
  | KHR
deriving DecidableEq

def SHIFT1_START : Nat := 6 * 3600
def SHIFT1_END : Nat := 18 * 3600
def SHIFT2_START : Nat := 18 * 3600 + 60
def SHIFT2_END : Nat := 22 * 3600
def SHIFT3_START : Nat := 20 * 3600 + 60
def SHIFT3_END : Nat := 6 * 3600

/-- Embedding of `get_shift_and_business_date`: the if-chain over the shift
windows, in source order, with the defensive final fallback. -/
def get_shift_and_business_date (now_dt : DateTime) : Shift × Int :=
  let t := now_dt.tod
  let today := now_dt.day
  if SHIFT1_START ≤ t ∧ t ≤ SHIFT1_END then (Shift.shift1, today)
  else if SHIFT2_START ≤ t ∧ t ≤ SHIFT2_END then (Shift.shift2, today)
  else if SHIFT3_START ≤ t then (Shift.shift3, today)
  else if t < SHIFT3_END then (Shift.shift3, today - 1)
  else (Shift.shift3, today)

/-- True iff control reaches the final fallback return of
`get_shift_and_business_date` (all four guards fail). -/
def classifier_fallback (now_dt : DateTime) : Bool :=
  let t := now_dt.tod
  if SHIFT1_START ≤ t ∧ t ≤ SHIFT1_END then false
  else if SHIFT2_START ≤ t ∧ t ≤ SHIFT2_END then false
  else if SHIFT3_START ≤ t then false
  else if t < SHIFT3_END then false
  else true

/-- Embedding of `get_today_str`: the current calendar date. -/
def get_today_str (now_dt : DateTime) : Int := now_dt.day

/-- The full-precision `datetime.now()` wall clock: calendar day, seconds of
day, and microseconds within the current second. -/
structure WallClock where
  day : Int
  tod : Nat
  usec : Nat
deriving DecidableEq

/-- The second-truncated timestamp that `strftime("%Y-%m-%d %H:%M:%S")`
writes into `history`. -/
def truncate (w : WallClock) : DateTime := ⟨w.day, w.tod⟩

/-- `get_shift_and_business_date` applied to the full-precision wall clock:
Python `time` comparisons include microseconds, so an inclusive upper window
bound holds only when the sub-second part is zero, while the lower bounds and
strict bounds collapse to whole-second comparisons. -/
def classify_wallclock (w : WallClock) : Shift × Int :=
  if SHIFT1_START ≤ w.tod ∧ (w.tod < SHIFT1_END ∨ (w.tod = SHIFT1_END ∧ w.usec = 0))
    then (Shift.shift1, w.day)
  else if SHIFT2_START ≤ w.tod ∧ (w.tod < SHIFT2_END ∨ (w.tod = SHIFT2_END ∧ w.usec = 0))
    then (Shift.shift2, w.day)
  else if SHIFT3_START ≤ w.tod then (Shift.shift3, w.day)
  else if w.tod < SHIFT3_END then (Shift.shift3, w.day - 1)
  else (Shift.shift3, w.day)

structure TKey where
  chat_id : Int
  date : Int
  shift : Shift
  currency : Currency
deriving DecidableEq

structure TVal where
  total : Rat
  invoices : Nat
deriving DecidableEq

structure HistoryEntry where
  chat_id : Int
  dt : DateTime
  business_date : Int
  shift : Shift
  currency : Currency
  amount : Rat
deriving DecidableEq

structure OldRow where
  chat_id : Int
  date : Int
  shift : Shift
  currency : Currency
  total : Rat
  invoices : Nat
deriving DecidableEq

structure DBState where
  history : List HistoryEntry
  totals : TKey → Option TVal
  old_totals : List OldRow

/-- The freshly initialised database (`init_db` on a missing file): all tables empty. -/
def emptyDB : DBState := ⟨[], fun _ => none, []⟩

/-- The `totals` key a history entry contributes to. -/
def keyOf (e : HistoryEntry) : TKey := ⟨e.chat_id, e.business_date, e.shift, e.currency⟩

def matchesKey (k : TKey) (e : HistoryEntry) : Bool :=
  decide (e.chat_id = k.chat_id ∧ e.business_date = k.date ∧ e.shift = k.shift ∧ e.currency = k.currency)

/-- The `GROUP BY chat_id, business_date, shift, currency` group for one key. -/
def historyGroup (h : List HistoryEntry) (k : TKey) : List HistoryEntry :=
  h.filter (matchesKey k)

/-- The grouped `SUM(amount), COUNT(*)` over `history` for one key, `none` when
the group is empty (no row is inserted for empty groups). -/
def recalcMap (h : List HistoryEntry) (k : TKey) : Option TVal :=
  let g := historyGroup h k
  if g.isEmpty then none
  else some ⟨(g.map HistoryEntry.amount).sum, g.length⟩

/-- Embedding of `recalc_totals_from_history`: delete all of `totals`, then
insert one row per nonempty history group. -/
def recalc_totals_from_history (s : DBState) : DBState :=
  { s with totals := recalcMap s.history }

/-- Embedding of `update_total`: classify the full-precision `datetime.now()`
value, append the ledger entry carrying the second-truncated timestamp, then
add to the existing `totals` row or insert a fresh one. -/
def update_total (s : DBState) (chat_id : Int) (currency : Currency) (amount : Rat) (now_dt : WallClock) : DBState :=
  let sb := classify_wallclock now_dt
  let entry : HistoryEntry := ⟨chat_id, truncate now_dt, sb.2, sb.1, currency, amount⟩
  let k : TKey := ⟨chat_id, sb.2, sb.1, currency⟩
  let totals' : TKey → Option TVal := fun q =>
    if q = k then
      match s.totals k with
      | some v => some ⟨v.total + amount, v.invoices + 1⟩
      | none => some ⟨amount, 1⟩
    else s.totals q
  { s with history := s.history ++ [entry], totals := totals' }

def shiftList : List Shift := [Shift.shift1, Shift.shift2, Shift.shift3]

def currencies : List Currency := [Currency.USD, Currency.KHR]

/-- One `totals` row, with the SQL result-set defaulting: absent rows report zeros. -/
def queryKey (s : DBState) (k : TKey) : TVal := (s.totals k).getD ⟨0, 0⟩

/-- Embedding of `get_totals` (result for one currency of the returned dict):
with a shift, the single row at the key; without, the `SUM` across shifts. -/
def get_totals (s : DBState) (chat_id : Int) (date_str : Option Int) (shift : Option Shift) (now_dt : DateTime) (c : Currency) : TVal :=
  let d := date_str.getD (get_today_str now_dt)
  match shift with
  | some sh => queryKey s ⟨chat_id, d, sh, c⟩
  | none =>
      let vals := shiftList.map fun sh => queryKey s ⟨chat_id, d, sh, c⟩
      ⟨(vals.map TVal.total).sum, (vals.map TVal.invoices).sum⟩

/-- Embedding of `get_old_totals` (result for one currency): the `SUM` over all
`old_totals` rows matching `(chat_id, date)`, across shifts and archive events. -/
def get_old_totals (s : DBState) (chat_id : Int) (date_str : Option Int) (now_dt : DateTime) (c : Currency) : TVal :=
  let rows := s.old_totals.filter fun r =>
    decide (r.chat_id = chat_id ∧ r.date = (date_str.getD (get_today_str now_dt)) ∧ r.currency = c)
  ⟨(rows.map OldRow.total).sum, (rows.map OldRow.invoices).sum⟩

/-- The batch of rows `move_to_old` inserts into `old_totals`: one per existing
`totals` row at `(chat_id, date_str, shift)`, whatever its count. -/
def archiveRows (s : DBState) (chat_id : Int) (shift : Shift) (date_str : Int) : List OldRow :=
  currencies.filterMap fun c =>
    (s.totals ⟨chat_id, date_str, shift, c⟩).map fun v =>
      (⟨chat_id, date_str, shift, c, v.total, v.invoices⟩ : OldRow)

/-- Embedding of `move_to_old`: if any row exists at the key, copy every row to
`old_totals` and zero the active rows; otherwise do nothing. -/
def move_to_old (s : DBState) (chat_id : Int) (shift : Shift) (date_str : Int) : DBState :=
  let rows := archiveRows s chat_id shift date_str
  if rows.isEmpty then s
  else
    { s with
      old_totals := s.old_totals ++ rows
      totals := fun k =>
        if k.chat_id = chat_id ∧ k.date = date_str ∧ k.shift = shift
        then (s.totals k).map fun _ => ⟨0, 0⟩
        else s.totals k }

/-- The Reset button of `handle_message`: zero all `totals` rows for `(chat_id, date)`. -/
def reset_totals (s : DBState) (chat_id : Int) (date_str : Int) : DBState :=
  { s with totals := fun k =>
      if k.chat_id = chat_id ∧ k.date = date_str
      then (s.totals k).map fun _ => ⟨0, 0⟩
      else s.totals k }

/-- The New Data branch of `handle_message`: classify now, `move_to_old` the
current shift, then report `get_old_totals` for the current business date. -/
def close_shift_facade (s : DBState) (chat_id : Int) (now_dt : DateTime) : DBState × (Currency → TVal) :=
  let sb := get_shift_and_business_date now_dt
  let s' := move_to_old s chat_id sb.1 sb.2
  (s', fun c => get_old_totals s' chat_id (some sb.2) now_dt c)

/-- The state-mutating operations reachable from the message handlers. -/
inductive Op where
  | record (chat_id : Int) (currency : Currency) (amount : Rat) (now_dt : WallClock)
  | recalc
  | close (chat_id : Int) (shift : Shift) (date_str : Int)
  | reset (chat_id : Int) (date_str : Int)

def applyOp (s : DBState) : Op → DBState
  | Op.record chat c a now => update_total s chat c a now
  | Op.recalc => recalc_totals_from_history s
  | Op.close chat sh d => move_to_old s chat sh d
  | Op.reset chat d => reset_totals s chat d

def runOps (ops : List Op) : DBState := ops.foldl applyOp emptyDB

/-- Arguments of one `update_total` call. -/
structure RecordCall where
  chat_id : Int
  currency : Currency
  amount : Rat
  now_dt : WallClock

def runRecords (l : List RecordCall) : DBState :=
  l.foldl (fun s r => update_total s r.chat_id r.currency r.amount r.now_dt) emptyDB

/-- 07:00:00 on day 0 (a shift1 time). -/
def dtMorning : DateTime := ⟨0, 25200⟩

/-- 07:00:00.000000 on day 0 (a shift1 wall clock). -/
def wcMorning : WallClock := ⟨0, 25200, 0⟩

/-- One 5 USD record on day 0, shift1. -/
def sA : DBState := update_total emptyDB 1 Currency.USD 5 wcMorning

/-- `sA` after closing shift1 of day 0. -/
def sB : DBState := move_to_old sA 1 Shift.shift1 0

/-- `sB` after one further 3 USD record on day 0, shift1. -/
def sC : DBState := update_total sB 1 Currency.USD 3 wcMorning

/-! ### Classifier lemmas -/

lemma classify_early (now_dt : DateTime) (h : now_dt.tod < SHIFT3_END) :
    get_shift_and_business_date now_dt = (Shift.shift3, now_dt.day - 1) := by
  simp only [SHIFT3_END] at h
  have h1 : ¬ (SHIFT1_START ≤ now_dt.tod ∧ now_dt.tod ≤ SHIFT1_END) := by
    simp only [SHIFT1_START, SHIFT1_END]; omega
  have h2 : ¬ (SHIFT2_START ≤ now_dt.tod ∧ now_dt.tod ≤ SHIFT2_END) := by
    simp only [SHIFT2_START, SHIFT2_END]; omega
  have h3 : ¬ (SHIFT3_START ≤ now_dt.tod) := by
    simp only [SHIFT3_START]; omega
  have h4 : now_dt.tod < SHIFT3_END := by simp only [SHIFT3_END]; omega
  simp only [get_shift_and_business_date, if_neg h1, if_neg h2, if_neg h3, if_pos h4]

lemma classify_shift1 (now_dt : DateTime) (h1 : SHIFT1_START ≤ now_dt.tod)
    (h2 : now_dt.tod ≤ SHIFT1_END) :
    get_shift_and_business_date now_dt = (Shift.shift1, now_dt.day) := by
  simp only [get_shift_and_business_date, if_pos (And.intro h1 h2)]

lemma classify_overlap (now_dt : DateTime) (h1 : SHIFT3_START ≤ now_dt.tod)
    (h2 : now_dt.tod ≤ SHIFT2_END) :
    get_shift_and_business_date now_dt = (Shift.shift2, now_dt.day) := by
  simp only [SHIFT3_START] at h1
  have g1 : ¬ (SHIFT1_START ≤ now_dt.tod ∧ now_dt.tod ≤ SHIFT1_END) := by
    simp only [SHIFT1_START, SHIFT1_END]; omega
  have g2 : SHIFT2_START ≤ now_dt.tod ∧ now_dt.tod ≤ SHIFT2_END := by
    refine ⟨?_, h2⟩
    simp only [SHIFT2_START]; omega
  simp only [get_shift_and_business_date, if_neg g1, if_pos g2]

lemma classifier_fallback_iff (now_dt : DateTime) :
    classifier_fallback now_dt = true ↔
      SHIFT1_END < now_dt.tod ∧ now_dt.tod < SHIFT2_START := by
  simp only [classifier_fallback, SHIFT1_START, SHIFT1_END, SHIFT2_START, SHIFT2_END,
    SHIFT3_START, SHIFT3_END]
  split_ifs with h1 h2 h3 h4 <;> simp <;> omega

lemma classifier_fallback_result (now_dt : DateTime) (h : classifier_fallback now_dt = true) :
    get_shift_and_business_date now_dt = (Shift.shift3, now_dt.day) := by
  have hh := (classifier_fallback_iff now_dt).mp h
  simp only [SHIFT1_END, SHIFT2_START] at hh
  have g1 : ¬ (SHIFT1_START ≤ now_dt.tod ∧ now_dt.tod ≤ SHIFT1_END) := by
    simp only [SHIFT1_START, SHIFT1_END]; omega
  have g2 : ¬ (SHIFT2_START ≤ now_dt.tod ∧ now_dt.tod ≤ SHIFT2_END) := by
    simp only [SHIFT2_START, SHIFT2_END]; omega
  have g3 : ¬ (SHIFT3_START ≤ now_dt.tod) := by
    simp only [SHIFT3_START]; omega
  have g4 : ¬ (now_dt.tod < SHIFT3_END) := by
    simp only [SHIFT3_END]; omega
  simp only [get_shift_and_business_date, if_neg g1, if_neg g2, if_neg g3, if_neg g4]

/-- Claim C3: every timestamp with time-of-day in [00:00:00, 06:00:00) is
classified as shift3 with business date the calendar date minus one day, and
every timestamp with time-of-day in [06:00:00, 18:00:00] as shift1 with the
calendar date itself. -/
theorem claim_C3 :
    (∀ now_dt : DateTime, now_dt.tod < SHIFT3_END →
        get_shift_and_business_date now_dt = (Shift.shift3, now_dt.day - 1))
    ∧ (∀ now_dt : DateTime, SHIFT1_START ≤ now_dt.tod → now_dt.tod ≤ SHIFT1_END →
        get_shift_and_business_date now_dt = (Shift.shift1, now_dt.day)) :=
  ⟨classify_early, classify_shift1⟩

/-- Witness for claim C3 at 01:00:00 of day 5 and 12:00:00 of day 2. -/
theorem claim_C3_witness :
    get_shift_and_business_date ⟨5, 3600⟩ = (Shift.shift3, (5:Int) - 1)
    ∧ get_shift_and_business_date ⟨2, 43200⟩ = (Shift.shift1, 2) :=
  ⟨claim_C3.1 ⟨5, 3600⟩ (by decide), claim_C3.2 ⟨2, 43200⟩ (by decide) (by decide)⟩

/-- Claim C4: on the overlap region 20:01:00-22:00:00, which satisfies both the
shift2 and the shift3 window, the classifier returns shift2 with today's date,
because the shift2 guard is checked before the shift3 guard. -/
theorem claim_C4 (now_dt : DateTime) (h1 : SHIFT3_START ≤ now_dt.tod)
    (h2 : now_dt.tod ≤ SHIFT2_END) :
    get_shift_and_business_date now_dt = (Shift.shift2, now_dt.day) :=
  classify_overlap now_dt h1 h2

/-- Witness for claim C4 at 21:00:00 of day 0. -/
theorem claim_C4_witness :
    get_shift_and_business_date ⟨0, 75600⟩ = (Shift.shift2, 0) :=
  claim_C4 ⟨0, 75600⟩ (by decide) (by decide)

/-- Counterexample to claim C5: 18:00:30 is a valid time of day that matches
none of the three shift windows, so the defensive fallback branch is reached. -/
theorem claim_C5_counterexample :
    classifier_fallback ⟨0, 64830⟩ = true
    ∧ (64830 : Nat) < 86400
    ∧ get_shift_and_business_date ⟨0, 64830⟩ = (Shift.shift3, 0) := by decide

/-- Claim C5 as amended: the fallback branch is reached exactly for times of
day strictly between 18:00:00 and 18:01:00 (the gap between the shift1 and
shift2 windows); for such timestamps the classifier returns shift3 with
today's calendar date. For all other times of day one of the windows matches. -/
theorem claim_C5_amended (now_dt : DateTime) :
    (classifier_fallback now_dt = true ↔
        SHIFT1_END < now_dt.tod ∧ now_dt.tod < SHIFT2_START)
    ∧ (classifier_fallback now_dt = true →
        get_shift_and_business_date now_dt = (Shift.shift3, now_dt.day)) :=
  ⟨classifier_fallback_iff now_dt, classifier_fallback_result now_dt⟩

/-- Witness for the amended claim C5 at 18:00:30 of day 0. -/
theorem claim_C5_witness :
    classifier_fallback ⟨0, 64830⟩ = true
    ∧ get_shift_and_business_date ⟨0, 64830⟩ = (Shift.shift3, 0) :=
  ⟨(claim_C5_amended ⟨0, 64830⟩).1.mpr (by decide),
   (claim_C5_amended ⟨0, 64830⟩).2 ((claim_C5_amended ⟨0, 64830⟩).1.mpr (by decide))⟩

/-- Claim C10: with the date argument omitted, `get_totals` and
`get_old_totals` read the current calendar date; for wall-clock times in
[00:00:00, 06:00:00) that differs from the business date new records are
attributed to, which is the previous calendar day. -/
theorem claim_C10 (s : DBState) (chat_id : Int) (sh : Option Shift)
    (now_dt : DateTime) (c : Currency) (h : now_dt.tod < SHIFT3_END) :
    get_totals s chat_id none sh now_dt c = get_totals s chat_id (some now_dt.day) sh now_dt c
    ∧ get_old_totals s chat_id none now_dt c = get_old_totals s chat_id (some now_dt.day) now_dt c
    ∧ get_shift_and_business_date now_dt = (Shift.shift3, now_dt.day - 1)
    ∧ now_dt.day - 1 ≠ now_dt.day :=
  ⟨rfl, rfl, classify_early now_dt h, by omega⟩

/-- Witness for claim C10 at midnight of day 0 on the empty database. -/
theorem claim_C10_witness :
    get_totals emptyDB 1 none none ⟨0, 0⟩ Currency.USD
      = get_totals emptyDB 1 (some 0) none ⟨0, 0⟩ Currency.USD
    ∧ get_old_totals emptyDB 1 none ⟨0, 0⟩ Currency.USD
      = get_old_totals emptyDB 1 (some 0) ⟨0, 0⟩ Currency.USD
    ∧ get_shift_and_business_date ⟨0, 0⟩ = (Shift.shift3, (0:Int) - 1)
    ∧ (0:Int) - 1 ≠ 0 :=
  claim_C10 emptyDB 1 none ⟨0, 0⟩ Currency.USD (by decide)

/-! ### Recomputation: idempotence and consistency -/

/-- Claim C2: `recalc_totals_from_history` is idempotent — running it twice in
immediate succession leaves the state identical to running it once, so every
subsequent totals query returns the same result. -/
theorem claim_C2 (s : DBState) :
    recalc_totals_from_history (recalc_totals_from_history s) = recalc_totals_from_history s
    ∧ ∀ (chat_id : Int) (d : Option Int) (sh : Option Shift) (now_dt : DateTime) (c : Currency),
        get_totals (recalc_totals_from_history (recalc_totals_from_history s)) chat_id d sh now_dt c
          = get_totals (recalc_totals_from_history s) chat_id d sh now_dt c :=
  ⟨rfl, fun _ _ _ _ _ => rfl⟩

/-- The running `totals` agree with the grouped history sums at every key. -/
def Consistent (s : DBState) : Prop := ∀ k, s.totals k = recalcMap s.history k

lemma consistent_empty : Consistent emptyDB := fun _ => rfl

lemma matchesKey_keyOf (k : TKey) (e : HistoryEntry) :
    matchesKey k e = true ↔ k = keyOf e := by
  simp only [matchesKey, keyOf, decide_eq_true_eq]
  cases k
  simp only [TKey.mk.injEq]
  constructor
  · rintro ⟨a, b, c, d⟩; exact ⟨a.symm, b.symm, c.symm, d.symm⟩
  · rintro ⟨a, b, c, d⟩; exact ⟨a.symm, b.symm, c.symm, d.symm⟩

lemma historyGroup_append (h : List HistoryEntry) (e : HistoryEntry) (k : TKey) :
    historyGroup (h ++ [e]) k
      = historyGroup h k ++ if k = keyOf e then [e] else [] := by
  simp only [historyGroup, List.filter_append]
  congr 1
  by_cases hk : k = keyOf e
  · have hm : matchesKey k e = true := (matchesKey_keyOf k e).mpr hk
    rw [if_pos hk]
    simp [List.filter_cons, hm]
  · have hm : ¬ (matchesKey k e = true) := fun ht => hk ((matchesKey_keyOf k e).mp ht)
    rw [if_neg hk]
    simp [List.filter_cons, hm]

lemma recalcMap_append (h : List HistoryEntry) (e : HistoryEntry) (k : TKey) :
    recalcMap (h ++ [e]) k
      = if k = keyOf e
        then match recalcMap h k with
          | none => some ⟨e.amount, 1⟩
          | some v => some ⟨v.total + e.amount, v.invoices + 1⟩
        else recalcMap h k := by
  by_cases hk : k = keyOf e
  · subst hk
    cases hgl : historyGroup h (keyOf e) with
    | nil =>
        simp [recalcMap, historyGroup_append, hgl]
    | cons a as =>
        simp [recalcMap, historyGroup_append, hgl, add_assoc]
  · rw [if_neg hk]
    simp [recalcMap, historyGroup_append, hk]

lemma update_total_consistent (s : DBState) (chat_id : Int) (currency : Currency)
    (amount : Rat) (now_dt : WallClock) (hs : Consistent s) :
    Consistent (update_total s chat_id currency amount now_dt) := by
  intro k
  have hk := hs k
  simp only [update_total]
  rw [recalcMap_append]
  simp only [keyOf]
  by_cases hkk : k = (⟨chat_id, (classify_wallclock now_dt).2,
      (classify_wallclock now_dt).1, currency⟩ : TKey)
  · subst hkk
    cases hv : s.totals (⟨chat_id, (classify_wallclock now_dt).2,
        (classify_wallclock now_dt).1, currency⟩ : TKey) with
    | none =>
        rw [hv] at hk
        simp [hv, ← hk]
    | some v =>
        rw [hv] at hk
        simp [hv, ← hk]
  · simp only [if_neg hkk]
    exact hk

lemma runRecords_loop_consistent (l : List RecordCall) :
    ∀ s : DBState, Consistent s →
      Consistent (l.foldl (fun s r => update_total s r.chat_id r.currency r.amount r.now_dt) s) := by
  induction l with
  | nil => intro s hs; exact hs
  | cons r rs ih =>
      intro s hs
      exact ih _ (update_total_consistent s r.chat_id r.currency r.amount r.now_dt hs)

/-- Claim C1: after any sequence of `update_total` calls starting from the
empty store (no reset, no close in between), every `totals` row equals the
grouped sum of amounts and count of `history` entries for its key — exactly
what `recalc_totals_from_history` computes. -/
theorem claim_C1 (l : List RecordCall) (k : TKey) :
    (runRecords l).totals k = (recalc_totals_from_history (runRecords l)).totals k :=
  runRecords_loop_consistent l emptyDB consistent_empty k

/-! ### Ledger classification invariant -/

/-- Every ledger entry stores the classification of its own stored timestamp. -/
def LedgerClassified (s : DBState) : Prop :=
  ∀ e ∈ s.history, ∃ u : Nat,
    (e.shift, e.business_date) = classify_wallclock ⟨e.dt.day, e.dt.tod, u⟩

lemma applyOp_ledgerClassified (s : DBState) (op : Op) (hs : LedgerClassified s) :
    LedgerClassified (applyOp s op) := by
  cases op with
  | record chat c a now =>
      intro e he
      simp only [applyOp, update_total, List.mem_append, List.mem_singleton] at he
      rcases he with he | he
      · exact hs e he
      · subst he
        exact ⟨now.usec, rfl⟩
  | recalc => exact hs
  | close chat sh d =>
      intro e he
      apply hs
      have hh : (move_to_old s chat sh d).history = s.history := by
        simp only [move_to_old]
        split
        · rfl
        · rfl
      rwa [← hh]
  | reset chat d => exact hs

lemma runOps_loop_classified (ops : List Op) :
    ∀ s : DBState, LedgerClassified s → LedgerClassified (ops.foldl applyOp s) := by
  induction ops with
  | nil => intro s hs; exact hs
  | cons op rest ih =>
      intro s hs
      exact ih _ (applyOp_ledgerClassified s op hs)

lemma classify_wallclock_zero_usec (w : WallClock) (h : w.usec = 0) :
    classify_wallclock w = get_shift_and_business_date ⟨w.day, w.tod⟩ := by
  have e1 : (w.tod < SHIFT1_END ∨ (w.tod = SHIFT1_END ∧ w.usec = 0)) ↔ w.tod ≤ SHIFT1_END := by
    simp only [SHIFT1_END]
    omega
  have e2 : (w.tod < SHIFT2_END ∨ (w.tod = SHIFT2_END ∧ w.usec = 0)) ↔ w.tod ≤ SHIFT2_END := by
    simp only [SHIFT2_END]
    omega
  simp only [classify_wallclock, get_shift_and_business_date, e1, e2]

/-- Counterexample to claim C9: a record written at wall clock 18:00:00.500000
is classified at full microsecond precision, where every window guard fails
and the fallback yields shift3; but the stored timestamp is the truncation
18:00:00, which the classifier maps to shift1 — so the stored
(shift, business date) pair differs from the classification of the stored
timestamp. -/
theorem claim_C9_counterexample :
    (runOps [Op.record 1 Currency.USD 5 ⟨0, 64800, 500000⟩]).history
      = [⟨1, ⟨0, 64800⟩, 0, Shift.shift3, Currency.USD, 5⟩]
    ∧ ((⟨1, ⟨0, 64800⟩, 0, Shift.shift3, Currency.USD, 5⟩ : HistoryEntry).shift,
        (⟨1, ⟨0, 64800⟩, 0, Shift.shift3, Currency.USD, 5⟩ : HistoryEntry).business_date)
        ≠ get_shift_and_business_date
            (⟨1, ⟨0, 64800⟩, 0, Shift.shift3, Currency.USD, 5⟩ : HistoryEntry).dt := by
  decide

/-- Claim C9 as amended: after any sequence of operations from the empty
store, every `history` entry's (shift, business date) pair is the classifier's
output on the full-precision wall clock of its write — some timestamp whose
second-truncation is the entry's stored timestamp; classifying the stored
timestamp itself agrees whenever that wall clock's sub-second part is zero. -/
theorem claim_C9_amended :
    (∀ ops : List Op, ∀ e ∈ (runOps ops).history, ∃ u : Nat,
        (e.shift, e.business_date) = classify_wallclock ⟨e.dt.day, e.dt.tod, u⟩)
    ∧ (∀ w : WallClock, w.usec = 0 →
        classify_wallclock w = get_shift_and_business_date ⟨w.day, w.tod⟩) :=
  ⟨fun ops => runOps_loop_classified ops emptyDB (fun x hx => absurd hx (List.not_mem_nil x)),
   classify_wallclock_zero_usec⟩

/-- Witness for the amended claim C9: the entry written by one record
operation at a whole-second wall clock. -/
theorem claim_C9_witness :
    (∃ u : Nat,
      ((⟨1, dtMorning, 0, Shift.shift1, Currency.USD, 5⟩ : HistoryEntry).shift,
        (⟨1, dtMorning, 0, Shift.shift1, Currency.USD, 5⟩ : HistoryEntry).business_date)
        = classify_wallclock
            ⟨(⟨1, dtMorning, 0, Shift.shift1, Currency.USD, 5⟩ : HistoryEntry).dt.day,
             (⟨1, dtMorning, 0, Shift.shift1, Currency.USD, 5⟩ : HistoryEntry).dt.tod, u⟩)
    ∧ classify_wallclock ⟨0, 25200, 0⟩ = get_shift_and_business_date ⟨0, 25200⟩ :=
  ⟨claim_C9_amended.1 [Op.record 1 Currency.USD 5 ⟨0, 25200, 0⟩]
      ⟨1, dtMorning, 0, Shift.shift1, Currency.USD, 5⟩ (by decide),
   claim_C9_amended.2 ⟨0, 25200, 0⟩ rfl⟩

/-! ### Archiving lemmas -/

lemma get_totals_after_move (s : DBState) (chat_id : Int) (sh : Shift) (d : Int)
    (now_dt : DateTime) (c : Currency) :
    get_totals (move_to_old s chat_id sh d) chat_id (some d) (some sh) now_dt c = ⟨0, 0⟩ := by
  cases hU : s.totals ⟨chat_id, d, sh, Currency.USD⟩ <;>
    cases hK : s.totals ⟨chat_id, d, sh, Currency.KHR⟩ <;>
      cases c <;>
        simp [get_totals, queryKey, move_to_old, archiveRows, currencies, get_today_str, hU, hK]

lemma get_old_totals_after_move (s : DBState) (chat_id : Int) (sh : Shift) (d : Int)
    (now_dt : DateTime) (c : Currency) :
    get_old_totals (move_to_old s chat_id sh d) chat_id (some d) now_dt c
      = ⟨(get_old_totals s chat_id (some d) now_dt c).total
            + (get_totals s chat_id (some d) (some sh) now_dt c).total,
         (get_old_totals s chat_id (some d) now_dt c).invoices
            + (get_totals s chat_id (some d) (some sh) now_dt c).invoices⟩ := by
  cases hU : s.totals ⟨chat_id, d, sh, Currency.USD⟩ <;>
    cases hK : s.totals ⟨chat_id, d, sh, Currency.KHR⟩ <;>
      cases c <;>
        simp [get_old_totals, get_totals, queryKey, move_to_old, archiveRows, currencies,
          get_today_str, hU, hK, List.filter_append, add_assoc]

/-- Claim C8: for every state, closing a shift and immediately querying its
totals yields zero total and zero count for every currency, and the archive
query for (account, date) afterwards equals its prior value plus the totals
the key held before the close — the closed totals are retrievable by
summation through the archive query. -/
theorem claim_C8 (s : DBState) (chat_id : Int) (sh : Shift) (d : Int)
    (now_dt : DateTime) (c : Currency) :
    get_totals (move_to_old s chat_id sh d) chat_id (some d) (some sh) now_dt c = ⟨0, 0⟩
    ∧ get_old_totals (move_to_old s chat_id sh d) chat_id (some d) now_dt c
        = ⟨(get_old_totals s chat_id (some d) now_dt c).total
              + (get_totals s chat_id (some d) (some sh) now_dt c).total,
           (get_old_totals s chat_id (some d) now_dt c).invoices
              + (get_totals s chat_id (some d) (some sh) now_dt c).invoices⟩ :=
  ⟨get_totals_after_move s chat_id sh d now_dt c,
   get_old_totals_after_move s chat_id sh d now_dt c⟩

/-- Counterexample to claim C7: after an earlier archive event for the same
key, the close-shift facade reports the accumulated archive sums (here 2
invoices), not the just-archived snapshot (1 invoice). -/
theorem claim_C7_counterexample :
    ((close_shift_facade sC 1 dtMorning).2 Currency.USD).invoices = 2
    ∧ (get_totals sC 1 (some 0) (some Shift.shift1) dtMorning Currency.USD).invoices = 1
    ∧ (close_shift_facade sC 1 dtMorning).2 Currency.USD
        ≠ get_totals sC 1 (some 0) (some Shift.shift1) dtMorning Currency.USD := by
  have h1 : ((close_shift_facade sC 1 dtMorning).2 Currency.USD).invoices = 2 := by decide
  have h2 : (get_totals sC 1 (some 0) (some Shift.shift1) dtMorning Currency.USD).invoices = 1 := by
    decide
  refine ⟨h1, h2, fun h => ?_⟩
  rw [h, h2] at h1
  exact absurd h1 (by decide)

/-- Claim C7 as amended: the close-shift facade returns the archive query for
(account, business date) evaluated after the move — the accumulated sums over
all archive rows for that account and date, prior archive events and other
shifts included, which equal the pre-call archive sums plus the just-archived
snapshot. -/
theorem claim_C7_amended (s : DBState) (chat_id : Int) (now_dt : DateTime) (c : Currency) :
    (close_shift_facade s chat_id now_dt).2 c
      = ⟨(get_old_totals s chat_id (some (get_shift_and_business_date now_dt).2) now_dt c).total
            + (get_totals s chat_id (some (get_shift_and_business_date now_dt).2)
                (some (get_shift_and_business_date now_dt).1) now_dt c).total,
         (get_old_totals s chat_id (some (get_shift_and_business_date now_dt).2) now_dt c).invoices
            + (get_totals s chat_id (some (get_shift_and_business_date now_dt).2)
                (some (get_shift_and_business_date now_dt).1) now_dt c).invoices⟩ :=
  get_old_totals_after_move s chat_id (get_shift_and_business_date now_dt).1
    (get_shift_and_business_date now_dt).2 now_dt c

/-- Counterexample to claim C6: `move_to_old` re-archives zeroed rows, so a
second consecutive close appends a new, zero-valued archive row. -/
theorem claim_C6_counterexample :
    (move_to_old sB 1 Shift.shift1 0).old_totals.length = sB.old_totals.length + 1
    ∧ (move_to_old sB 1 Shift.shift1 0).old_totals.getLast?
        = some ⟨1, 0, Shift.shift1, Currency.USD, 0, 0⟩ := by decide

/-- Claim C6 as amended: `move_to_old` archives one row per existing `totals`
row at (account, date, shift) regardless of its count, zero-count rows
included; it is a no-op only when no row at all exists at that key; and every
archive row a second consecutive call appends is zero-valued, so the second
call adds no nonzero archive rows. -/
theorem claim_C6_amended (s : DBState) (chat_id : Int) (sh : Shift) (d : Int) :
    ((∀ c, s.totals ⟨chat_id, d, sh, c⟩ = none) → move_to_old s chat_id sh d = s)
    ∧ (∀ c v, s.totals ⟨chat_id, d, sh, c⟩ = some v →
        (⟨chat_id, d, sh, c, v.total, v.invoices⟩ : OldRow) ∈ archiveRows s chat_id sh d
        ∧ (move_to_old s chat_id sh d).old_totals = s.old_totals ++ archiveRows s chat_id sh d)
    ∧ (∀ r ∈ archiveRows (move_to_old s chat_id sh d) chat_id sh d,
        r.total = 0 ∧ r.invoices = 0) := by
  refine ⟨?_, ?_, ?_⟩
  · intro hnone
    have hrows : archiveRows s chat_id sh d = [] := by
      simp [archiveRows, currencies, hnone]
    simp [move_to_old, hrows]
  · intro c v hv
    cases c with
    | USD =>
        cases hK : s.totals ⟨chat_id, d, sh, Currency.KHR⟩ with
        | none => simp [archiveRows, currencies, move_to_old, hv, hK]
        | some vK => simp [archiveRows, currencies, move_to_old, hv, hK]
    | KHR =>
        cases hU : s.totals ⟨chat_id, d, sh, Currency.USD⟩ with
        | none => simp [archiveRows, currencies, move_to_old, hv, hU]
        | some vU => simp [archiveRows, currencies, move_to_old, hv, hU]
  · intro r hr
    cases hU : s.totals ⟨chat_id, d, sh, Currency.USD⟩ with
    | none =>
        cases hK : s.totals ⟨chat_id, d, sh, Currency.KHR⟩ with
        | none =>
            simp [archiveRows, currencies, move_to_old, hU, hK] at hr
        | some vK =>
            simp [archiveRows, currencies, move_to_old, hU, hK] at hr
            subst hr
            simp
    | some vU =>
        cases hK : s.totals ⟨chat_id, d, sh, Currency.KHR⟩ with
        | none =>
            simp [archiveRows, currencies, move_to_old, hU, hK] at hr
            subst hr
            simp
        | some vK =>
            simp [archiveRows, currencies, move_to_old, hU, hK] at hr
            rcases hr with rfl | rfl <;> simp

/-- Witness for the amended claim C6 on concrete states. -/
theorem claim_C6_witness :
    move_to_old emptyDB 1 Shift.shift1 0 = emptyDB
    ∧ ((⟨1, 0, Shift.shift1, Currency.USD, 5, 1⟩ : OldRow) ∈ archiveRows sA 1 Shift.shift1 0
        ∧ (move_to_old sA 1 Shift.shift1 0).old_totals
            = sA.old_totals ++ archiveRows sA 1 Shift.shift1 0)
    ∧ ((⟨1, 0, Shift.shift1, Currency.USD, 0, 0⟩ : OldRow).total = 0
        ∧ (⟨1, 0, Shift.shift1, Currency.USD, 0, 0⟩ : OldRow).invoices = 0) :=
  ⟨(claim_C6_amended emptyDB 1 Shift.shift1 0).1 (fun _ => rfl),
   (claim_C6_amended sA 1 Shift.shift1 0).2.1 Currency.USD ⟨5, 1⟩ (by decide),
   (claim_C6_amended sA 1 Shift.shift1 0).2.2 ⟨1, 0, Shift.shift1, Currency.USD, 0, 0⟩ (by decide)⟩
